import Mathlib

/-!
Shallow embedding of the sequelite ORM core (schema migrator, typed
query/filter builder) for specification checking.

Sources embedded:
  * src/src/sql_types.rs      : SqliteType, SqliteFlag and their SQL rendering
  * src/src/model/column.rs   : Column descriptor, DDL rendering, flag helpers
  * src/src/model/relation.rs : ColumnRelation, Relation and its ToSql
  * src/src/model/query.rs    : RawQuery fragments, filters, IN queries, insert
  * src/src/model/update_query.rs : ModelUpdateQuery
  * src/src/model/migrator.rs : Migrator::migrate_models, replace_table_full
  * src/src/connection.rs     : get_all_tables / get_all_columns introspection

Conventions: Rust `String` becomes Lean `String`; `Vec<Box<dyn ToSql>>`
becomes `List SqlValue` (a closed tagged union of bindable values, as the
spec prescribes for the type-erased parameter boxing); a Rust `panic!`
becomes an `Option`/`none` result.  The SQLite engine itself is out of
scope of the repository; its schema-level semantics (what `CREATE TABLE`,
`ALTER TABLE`, PRAGMA introspection do) are modelled from the spec, see
the `applyStmt` section below.
-/

namespace Sequelite

/-- Closed tagged union of bindable SQL values, standing in for the Rust
`Box<dyn ToSql>` / `rusqlite::types::Value`.  (The `Real` and `Blob`
variants of the original are not exercised by any embedded operation and
are omitted so that equality stays decidable.) -/
inductive SqlValue where
  | integer (i : Int)
  | text (s : String)
  | null
deriving DecidableEq, Repr

/-- `SqliteType` from src/src/sql_types.rs. -/
inductive SqliteType where
  | integer
  | real
  | text
  | blob
  | datetime
deriving DecidableEq, Repr

/-- `impl IntoSqlite for SqliteType` from src/src/sql_types.rs. -/
def SqliteType.intoSqlite : SqliteType → String
  | .integer => "INTEGER"
  | .text => "TEXT"
  | .real => "REAL"
  | .blob => "BLOB"
  | .datetime => "DATETIME"

/-- `SqliteFlag` from src/src/sql_types.rs. -/
inductive SqliteFlag where
  | primaryKey
  | notNull
  | unique
  | autoIncrement
deriving DecidableEq, Repr

/-- `impl IntoSqlite for SqliteFlag` from src/src/sql_types.rs. -/
def SqliteFlag.intoSqlite : SqliteFlag → String
  | .primaryKey => "PRIMARY KEY"
  | .notNull => "NOT NULL"
  | .unique => "UNIQUE"
  | .autoIncrement => "AUTOINCREMENT"

/-- `ColumnRelationAction` from src/src/model/relation.rs. -/
inductive ColumnRelationAction where
  | restrict
  | cascade
  | setNull
  | setDefault
  | noAction
deriving DecidableEq, Repr

/-- `impl IntoSqlite for ColumnRelationAction` from src/src/model/relation.rs. -/
def ColumnRelationAction.intoSqlite : ColumnRelationAction → String
  | .restrict => "RESTRICT"
  | .cascade => "CASCADE"
  | .setNull => "SET NULL"
  | .setDefault => "SET DEFAULT"
  | .noAction => "NO ACTION"

/-- `ColumnRelation` from src/src/model/relation.rs (the fields that feed
its `IntoSqlite` rendering; the foreign-key `Column` pointer is kept as
the referenced column's name, which is all the rendering uses). -/
structure ColumnRelation where
  table : String
  column : String
  onDelete : ColumnRelationAction
  onUpdate : ColumnRelationAction
deriving DecidableEq, Repr

/-- `impl IntoSqlite for ColumnRelation` from src/src/model/relation.rs. -/
def ColumnRelation.intoSqlite (r : ColumnRelation) : String :=
  let sql := "REFERENCES " ++ r.table ++ "(" ++ r.column ++ ")"
  let sql := if r.onDelete ≠ .restrict then
    sql ++ " ON DELETE " ++ r.onDelete.intoSqlite else sql
  if r.onUpdate ≠ .restrict then
    sql ++ " ON UPDATE " ++ r.onUpdate.intoSqlite else sql

/-- `Column` from src/src/model/column.rs.  The Rust struct keeps two
name fields (`name: &str` for const columns, `name_str: String` for
introspected ones) and two flag stores; `name()`/`flags()` select the
populated one, and every reachable use goes through that selection (the
DDL renderer is only ever invoked on declared/const columns, for which
`name` and `name()` agree), so the embedding keeps a single `name` and a
single `flags` field.  The `default` field holds the rendered SQL literal
of the declared default value (`DefaultValue::into_sqlite`), following the
spec's closed-variant modelling of the trait object. -/
structure Column where
  name : String
  tableName : String
  ty : SqliteType
  flags : List SqliteFlag
  default : Option String
  relation : Option ColumnRelation
deriving DecidableEq, Repr

/-- `Column::has_flag` from src/src/model/column.rs. -/
def Column.hasFlag (c : Column) (f : SqliteFlag) : Bool :=
  c.flags.contains f

/-- `Column::has_default` from src/src/model/column.rs. -/
def Column.hasDefault (c : Column) : Bool :=
  c.default.isSome

/-- `Column::same_flags` from src/src/model/column.rs: every flag of
`self` must be carried by `other` (a one-directional subset check, not
set equality). -/
def Column.sameFlags (c other : Column) : Bool :=
  c.flags.all fun f => other.hasFlag f

/-- `Column::can_insert_null` from src/src/model/column.rs. -/
def Column.canInsertNull (c : Column) : Bool :=
  !(c.hasFlag .notNull) || c.hasFlag .primaryKey || c.hasDefault

/-- `impl IntoSqlite for Column` from src/src/model/column.rs: name,
type, flags in declaration order, optional DEFAULT, optional trailing
FOREIGN KEY clause. -/
def Column.intoSqlite (c : Column) : String :=
  let sql := c.name ++ " " ++ c.ty.intoSqlite
  let sql := c.flags.foldl (fun acc f => acc ++ " " ++ f.intoSqlite) sql
  let sql := match c.default with
    | some d => sql ++ " DEFAULT " ++ d
    | none => sql
  match c.relation with
  | some r => sql ++ ", FOREIGN KEY(" ++ c.name ++ ") " ++ r.intoSqlite
  | none => sql

/-- `RawQuery` from src/src/connection.rs: SQL text paired with its
positional parameters. -/
structure RawQuery where
  sql : String
  params : List SqlValue
deriving DecidableEq, Repr

/-- Number of positional `?` placeholders in a piece of SQL text. -/
def placeholderCount (s : String) : Nat :=
  s.data.count '?'

/-- A fragment is well formed when its parameter list has exactly one
entry per `?` placeholder of its text (§3 ordering invariant). -/
def RawQuery.wellFormed (q : RawQuery) : Prop :=
  placeholderCount q.sql = q.params.length

/-- The `ModelQueryFilter` trait objects of src/src/model/query.rs as a
closed syntax tree: `ColumnQueryFilter` (binary operator against one
value), `ColumnQueryFilterUnary` (IS NULL tests), `InQueryFilter`
(membership, already holding its rendered `RawQuery`), and the
`ModelQueryFilterAnd`/`ModelQueryFilterOr` combinators. -/
inductive ModelQueryFilter where
  | column (column : String) (op : String) (value : SqlValue)
  | unary (column : String) (op : String)
  | inq (sql : RawQuery)
  | and (filter0 filter1 : ModelQueryFilter)
  | or (filter0 filter1 : ModelQueryFilter)
deriving DecidableEq, Repr

/-- The `get_query` implementations of the filter types in
src/src/model/query.rs: `ColumnQueryFilter` renders
`format!("{} {} ?", column, op)` with its single value as parameter;
`ColumnQueryFilterUnary` renders `format!("{} {}", column, op)` with no
parameters; `InQueryFilter` hands back its stored query;
`ModelQueryFilterAnd`/`Or` render `format!("{} AND|OR {}", left, right)`
and append the right parameters after the left ones. -/
def ModelQueryFilter.getQuery : ModelQueryFilter → RawQuery
  | .column c op v => ⟨c ++ " " ++ op ++ " ?", [v]⟩
  | .unary c op => ⟨c ++ " " ++ op, []⟩
  | .inq q => q
  | .and f0 f1 =>
      let q0 := f0.getQuery
      let q1 := f1.getQuery
      ⟨q0.sql ++ " AND " ++ q1.sql, q0.params ++ q1.params⟩
  | .or f0 f1 =>
      let q0 := f0.getQuery
      let q1 := f1.getQuery
      ⟨q0.sql ++ " OR " ++ q1.sql, q0.params ++ q1.params⟩

/-- The `format!("{}.{}", self.table_name, self.name())` column reference
used by every filter constructor in src/src/model/query.rs. -/
def Column.sqlRef (c : Column) : String :=
  c.tableName ++ "." ++ c.name

/-- `Column::eq` via `impl_column_filter!(eq, "=")`. -/
def Column.eq (c : Column) (v : SqlValue) : ModelQueryFilter :=
  .column c.sqlRef "=" v

/-- `Column::ne` via `impl_column_filter!(ne, "!=")`. -/
def Column.ne (c : Column) (v : SqlValue) : ModelQueryFilter :=
  .column c.sqlRef "!=" v

/-- `Column::gt` via `impl_column_filter!(gt, ">")`. -/
def Column.gt (c : Column) (v : SqlValue) : ModelQueryFilter :=
  .column c.sqlRef ">" v

/-- `Column::lt` via `impl_column_filter!(lt, "<")`. -/
def Column.lt (c : Column) (v : SqlValue) : ModelQueryFilter :=
  .column c.sqlRef "<" v

/-- `Column::ge` via `impl_column_filter!(ge, ">=")`. -/
def Column.ge (c : Column) (v : SqlValue) : ModelQueryFilter :=
  .column c.sqlRef ">=" v

/-- `Column::le` via `impl_column_filter!(le, "<=")`. -/
def Column.le (c : Column) (v : SqlValue) : ModelQueryFilter :=
  .column c.sqlRef "<=" v

/-- `Column::like` via `impl_column_filter!(like, "LIKE")`. -/
def Column.like (c : Column) (v : SqlValue) : ModelQueryFilter :=
  .column c.sqlRef "LIKE" v

/-- `Column::not_like` via `impl_column_filter!(not_like, "NOT LIKE")`. -/
def Column.notLike (c : Column) (v : SqlValue) : ModelQueryFilter :=
  .column c.sqlRef "NOT LIKE" v

/-- `Column::is_null` from src/src/model/query.rs. -/
def Column.isNull (c : Column) : ModelQueryFilter :=
  .unary c.sqlRef "IS NULL"

/-- `Column::is_not_null` from src/src/model/query.rs. -/
def Column.isNotNull (c : Column) : ModelQueryFilter :=
  .unary c.sqlRef "IS NOT NULL"

/-- `Column::in_` from src/src/model/query.rs, taking the `RawQuery`
produced by the argument's `ColumnInQuery::to_query`. -/
def Column.inQ (c : Column) (q : RawQuery) : ModelQueryFilter :=
  .inq ⟨c.sqlRef ++ " IN " ++ q.sql, q.params⟩

/-- `Column::not_in` from src/src/model/query.rs. -/
def Column.notIn (c : Column) (q : RawQuery) : ModelQueryFilter :=
  .inq ⟨c.sqlRef ++ " NOT IN " ++ q.sql, q.params⟩

/-- `ColumnInQuery for Vec<T>`, the index-tracking rendering loop of
src/src/model/query.rs: the first element contributes `?`, every later
element `, ?`. -/
def vecInBody : Nat → List SqlValue → String
  | _, [] => ""
  | i, _ :: vs => (if i > 0 then ", " else "") ++ "?" ++ vecInBody (i + 1) vs

/-- `ColumnInQuery::to_query for Vec<T>`: parenthesised placeholder list,
parameters in element order. -/
def vecToQuery (vs : List SqlValue) : RawQuery :=
  ⟨"(" ++ vecInBody 0 vs ++ ")", vs⟩

/-- `ColumnQueryOrdering` from src/src/model/query.rs. -/
inductive ColumnQueryOrdering where
  | ascending
  | descending
deriving DecidableEq, Repr

/-- `impl IntoSqlite for ColumnQueryOrdering`. -/
def ColumnQueryOrdering.intoSqlite : ColumnQueryOrdering → String
  | .ascending => "ASC"
  | .descending => "DESC"

/-- `ColumnQueryOrder` from src/src/model/query.rs. -/
structure ColumnQueryOrder where
  column : String
  order : ColumnQueryOrdering
deriving DecidableEq, Repr

/-- `impl IntoSqlite for ColumnQueryOrder`. -/
def ColumnQueryOrder.intoSqlite (o : ColumnQueryOrder) : String :=
  o.column ++ " " ++ o.order.intoSqlite

/-- `Column::asc` (unqualified column name, per the source). -/
def Column.asc (c : Column) : ColumnQueryOrder :=
  ⟨c.name, .ascending⟩

/-- `Column::desc`. -/
def Column.desc (c : Column) : ColumnQueryOrder :=
  ⟨c.name, .descending⟩

/-- `ModelQuery` from src/src/model/query.rs (the fields the embedded
operations touch; the phantom model type and join bookkeeping are not
needed by any claim). -/
structure ModelQuery where
  tableName : String
  query : String
  params : List SqlValue
deriving DecidableEq, Repr

/-- `ModelQuery::select`. -/
def ModelQuery.select (table : String) : ModelQuery :=
  ⟨table, "SELECT * FROM " ++ table, []⟩

/-- `ModelQuery::combine`: append clause text after a space, parameters
after the existing ones. -/
def ModelQuery.combine (q : ModelQuery) (sql : String) (params : List SqlValue) :
    ModelQuery :=
  ⟨q.tableName, q.query ++ " " ++ sql, q.params ++ params⟩

/-- `ModelQuery::filter`. -/
def ModelQuery.filter (q : ModelQuery) (f : ModelQueryFilter) : ModelQuery :=
  q.combine ("WHERE " ++ f.getQuery.sql) f.getQuery.params

/-- `ModelQuery::with_id`. -/
def ModelQuery.withId (q : ModelQuery) (id : Int) : ModelQuery :=
  q.combine ("WHERE " ++ q.tableName ++ ".id = ? LIMIT 1") [.integer id]

/-- `ModelQuery::limit`. -/
def ModelQuery.limit (q : ModelQuery) (n : Nat) : ModelQuery :=
  q.combine "LIMIT ?" [.integer n]

/-- `ModelQuery::offset`. -/
def ModelQuery.offset (q : ModelQuery) (n : Nat) : ModelQuery :=
  q.combine "OFFSET ?" [.integer n]

/-- `ModelQuery::order_by`. -/
def ModelQuery.orderBy (q : ModelQuery) (o : ColumnQueryOrder) : ModelQuery :=
  q.combine ("ORDER BY " ++ o.intoSqlite) []

/-- `Queryable::get_query for ModelQuery`: hands over text and drained
parameters unchanged. -/
def ModelQuery.getQuery (q : ModelQuery) : RawQuery :=
  ⟨q.query, q.params⟩

/-- `ColumnInQuery::to_query for ModelQuery`: the nested select is
wrapped in parentheses, its parameters kept in their internal order. -/
def ModelQuery.toQuery (q : ModelQuery) : RawQuery :=
  ⟨"(" ++ q.getQuery.sql ++ ")", q.getQuery.params⟩

/-- The per-record body of `IntoInsertable for M::into_insertable`
(src/src/model/query.rs): walk the declared columns, fatally reject an
absent value on a column that cannot take a null (`panic!` in the
source, modelled as `none`, which happens before any SQL is built or
executed), and otherwise collect present values with their column
names.  The result pairs the column-name list with the single value
row. -/
def intoInsertableGo (value : Column → Option SqlValue) :
    List Column → List String → List SqlValue →
    Option (List String × List SqlValue)
  | [], colAcc, valAcc => some (colAcc, valAcc)
  | c :: cs, colAcc, valAcc =>
    let cv := value c
    if !c.canInsertNull && cv.isNone then
      none
    else
      match cv with
      | some v => intoInsertableGo value cs (colAcc ++ [c.name]) (valAcc ++ [v])
      | none => intoInsertableGo value cs colAcc valAcc

/-- `IntoInsertable for M::into_insertable` given the record's declared
column list and its per-column value accessor. -/
def intoInsertable (cols : List Column) (value : Column → Option SqlValue) :
    Option (List String × List SqlValue) :=
  intoInsertableGo value cols [] []

/-- `ModelUpdateQuery` from src/src/model/update_query.rs. -/
structure ModelUpdateQuery where
  query : RawQuery
  columns : List Column
  values : List SqlValue
deriving DecidableEq, Repr

namespace ModelUpdateQuery

/-- `ModelUpdateQuery::new`. -/
def new : ModelUpdateQuery :=
  ⟨⟨"", []⟩, [], []⟩

/-- `ModelUpdateQuery::combine`: clause text appended after a space,
clause parameters after the existing clause parameters. -/
def combine (q : ModelUpdateQuery) (other : RawQuery) : ModelUpdateQuery :=
  ⟨⟨q.query.sql ++ " " ++ other.sql, q.query.params ++ other.params⟩,
    q.columns, q.values⟩

/-- `ModelUpdateQuery::filter`. -/
def filterBy (q : ModelUpdateQuery) (f : ModelQueryFilter) : ModelUpdateQuery :=
  q.combine ⟨"WHERE " ++ f.getQuery.sql, f.getQuery.params⟩

/-- `ModelUpdateQuery::limit`. -/
def limit (q : ModelUpdateQuery) (n : Nat) : ModelUpdateQuery :=
  q.combine ⟨"LIMIT ?", [.integer n]⟩

/-- `ModelUpdateQuery::offset`. -/
def offset (q : ModelUpdateQuery) (n : Nat) : ModelUpdateQuery :=
  q.combine ⟨"OFFSET ?", [.integer n]⟩

/-- `ModelUpdateQuery::order_by`. -/
def orderBy (q : ModelUpdateQuery) (o : ColumnQueryOrder) : ModelUpdateQuery :=
  q.combine ⟨"ORDER BY " ++ o.intoSqlite, []⟩

/-- `ModelUpdateQuery::set`: push the column and its value. -/
def set (q : ModelUpdateQuery) (c : Column) (v : SqlValue) : ModelUpdateQuery :=
  ⟨q.query, q.columns ++ [c], q.values ++ [v]⟩

/-- The SET-clause column rendering loop of `Queryable::get_query for
ModelUpdateQuery`: `c=?` per column, `, ` after every non-last one. -/
def setClause : List Column → String
  | [] => ""
  | [c] => c.name ++ "=?"
  | c :: c' :: cs => c.name ++ "=?, " ++ setClause (c' :: cs)

/-- `Queryable::get_query for ModelUpdateQuery`
(src/src/model/update_query.rs): `UPDATE <table> SET <set clause>`
directly followed by the accumulated clause text (no separator — the
clause text starts with the space `combine` put there), with the SET
values first and the clause parameters drained after them. -/
def getQuery (table : String) (q : ModelUpdateQuery) : RawQuery :=
  ⟨"UPDATE " ++ table ++ " SET " ++ setClause q.columns ++ q.query.sql,
    q.values ++ q.query.params⟩

end ModelUpdateQuery

/-- One builder call on a `ModelUpdateQuery`, used to quantify over all
call chains. -/
inductive UpdateOp where
  | set (c : Column) (v : SqlValue)
  | filterBy (f : ModelQueryFilter)
  | limit (n : Nat)
  | offset (n : Nat)
  | orderBy (o : ColumnQueryOrder)
deriving DecidableEq, Repr

/-- Apply one builder call. -/
def UpdateOp.apply (q : ModelUpdateQuery) : UpdateOp → ModelUpdateQuery
  | .set c v => q.set c v
  | .filterBy f => q.filterBy f
  | .limit n => q.limit n
  | .offset n => q.offset n
  | .orderBy o => q.orderBy o

/-- Apply a chain of builder calls in order. -/
def applyUpdateOps (q : ModelUpdateQuery) (ops : List UpdateOp) : ModelUpdateQuery :=
  ops.foldl UpdateOp.apply q

/-- The columns named by the `set` calls of a chain, in call order. -/
def setColumnsOf (ops : List UpdateOp) : List Column :=
  ops.filterMap fun op => match op with
    | .set c _ => some c
    | _ => none

/-- The SET-clause parameters of a chain, in call order. -/
def setValuesOf (ops : List UpdateOp) : List SqlValue :=
  ops.filterMap fun op => match op with
    | .set _ v => some v
    | _ => none

/-- The parameters a single WHERE/LIMIT/OFFSET/ORDER BY call appends. -/
def UpdateOp.clauseParams : UpdateOp → List SqlValue
  | .set _ _ => []
  | .filterBy f => f.getQuery.params
  | .limit n => [.integer n]
  | .offset n => [.integer n]
  | .orderBy _ => []

/-- The clause text a single call appends (with the leading space from
`combine`). -/
def UpdateOp.clauseSql : UpdateOp → String
  | .set _ _ => ""
  | .filterBy f => " WHERE " ++ f.getQuery.sql
  | .limit _ => " LIMIT ?"
  | .offset _ => " OFFSET ?"
  | .orderBy o => " ORDER BY " ++ o.intoSqlite

/-- The WHERE/LIMIT/OFFSET/ORDER BY parameters of a chain, in append
order. -/
def clauseParamsOf (ops : List UpdateOp) : List SqlValue :=
  ops.flatMap UpdateOp.clauseParams

/-- The accumulated clause text of a chain. -/
def clauseSqlOf : List UpdateOp → String
  | [] => ""
  | op :: ops => op.clauseSql ++ clauseSqlOf ops

/-- `Relation` from src/src/model/relation.rs: an optional foreign key
and an optional cached related record. -/
structure Relation (α : Type) where
  relatedKey : Option Int
  related : Option α

/-- `ToSql for Relation::to_sql`: always an owned SQL integer, the key
when present and `0` (`unwrap_or(0)`) when absent. -/
def Relation.toSql {α : Type} (r : Relation α) : SqlValue :=
  .integer (r.relatedKey.getD 0)

/-- One live column as SQLite's `PRAGMA table_info` reports it: name,
declared type, NOT NULL flag, primary-key flag
(src/src/connection.rs::get_all_columns reads exactly these four
fields). -/
structure LiveColumn where
  name : String
  ty : SqliteType
  notNull : Bool
  pk : Bool
deriving DecidableEq, Repr

/-- One live table of the database: its name, its columns in order, and
whether the table's stored creation SQL contains the `AUTOINCREMENT`
marker (the substring test `sql LIKE '%AUTOINCREMENT%'` of
src/src/connection.rs, abstracted to a stored flag — identifiers and
default expressions are assumed not to contain the marker text). -/
structure LiveTable where
  name : String
  cols : List LiveColumn
  sqlHasAutoInc : Bool
deriving DecidableEq, Repr

/-- The live database schema the migrator introspects and rewrites.  The
SQL engine itself is an external collaborator (spec §1, §6); this state
and `applyStmt` below model its schema-level behaviour from the spec. -/
abbrev LiveDb := List LiveTable

/-- Look a table up by name. -/
def findTable (db : LiveDb) (t : String) : Option LiveTable :=
  db.find? fun tb => tb.name == t

/-- `Connection::get_all_tables` (src/src/connection.rs): every table
name except the engine's internal `sqlite_sequence`. -/
def getAllTables (db : LiveDb) : List String :=
  (db.map LiveTable.name).filter fun n => !(n == "sqlite_sequence")

/-- The column descriptor `Connection::get_all_columns` builds from one
`PRAGMA table_info` row (src/src/connection.rs): flags are NOT NULL,
then PRIMARY KEY, then AUTOINCREMENT when the column is a primary key
and the table's creation SQL carries the marker; table name, default
and relation are left empty (`Column::new(name, "", ty, flags, None,
None)`). -/
def introspectColumn (hasAI : Bool) (lc : LiveColumn) : Column :=
  { name := lc.name
    tableName := ""
    ty := lc.ty
    flags :=
      (if lc.notNull then [SqliteFlag.notNull] else []) ++
      (if lc.pk then [SqliteFlag.primaryKey] else []) ++
      (if lc.pk && hasAI then [SqliteFlag.autoIncrement] else [])
    default := none
    relation := none }

/-- `Connection::get_all_columns` for a whole table.  `PRAGMA
table_info` on an absent table yields no rows, hence `[]`. -/
def getAllColumns (db : LiveDb) (t : String) : List Column :=
  match findTable db t with
  | some tb => tb.cols.map (introspectColumn tb.sqlHasAutoInc)
  | none => []

/-- How a declared column descriptor materialises as a live column when
`CREATE TABLE` / `ADD COLUMN` executes its DDL (modelled from spec §6:
the engine stores name, declared type, NOT NULL and primary-key
markers). -/
def declaredToLive (c : Column) : LiveColumn :=
  { name := c.name
    ty := c.ty
    notNull := c.flags.contains SqliteFlag.notNull
    pk := c.flags.contains SqliteFlag.primaryKey }

/-- The live table `CREATE TABLE <t> (<col DDL>,...)` produces: all
declared columns materialised, creation SQL carrying `AUTOINCREMENT`
iff some declared column's flags render it. -/
def mkLiveTable (t : String) (cols : List Column) : LiveTable :=
  { name := t
    cols := cols.map declaredToLive
    sqlHasAutoInc := cols.any fun c => c.flags.contains SqliteFlag.autoIncrement }

/-- Every DDL statement `Migrator::migrate_models` /
`replace_table_full` executes, with its arguments. -/
inductive Stmt where
  | dropTable (t : String)
  | dropColumn (t c : String)
  | addColumn (t : String) (col : Column)
  | createTable (t : String) (cols : List Column)
  | createTempTable (t : String) (cols : List Column)
  | insertSelect (t : String)
  | renameTemp (t : String)
deriving DecidableEq, Repr

/-- Rust `String::pop`: remove the last character. -/
def popChar (s : String) : String :=
  String.mk s.data.dropLast

/-- The `for column in columns { sql.push_str(&format!("{},", ...)) }`
loop of the two table-creation sites (migrator.rs lines 92-94 and
109-111): every column DDL followed by a comma. -/
def commaJoinSrc : List String → String
  | [] => ""
  | s :: ss => s ++ "," ++ commaJoinSrc ss

/-- The exact SQL text each statement is executed with, transcribed from
the `format!` calls of src/src/model/migrator.rs (the table-creation
texts reproduce the push-comma-then-pop construction). -/
def Stmt.sql : Stmt → String
  | .dropTable t => "DROP TABLE IF EXISTS " ++ t
  | .dropColumn t c => "ALTER TABLE " ++ t ++ " DROP COLUMN " ++ c ++ ";"
  | .addColumn t col => "ALTER TABLE " ++ t ++ " ADD COLUMN " ++ col.intoSqlite ++ ";"
  | .createTable t cols =>
      popChar ("CREATE TABLE " ++ t ++ " (" ++
        commaJoinSrc (cols.map Column.intoSqlite)) ++ ")"
  | .createTempTable t cols =>
      popChar ("CREATE TABLE temp_" ++ t ++ "_new (" ++
        commaJoinSrc (cols.map Column.intoSqlite)) ++ ")"
  | .insertSelect t => "INSERT INTO temp_" ++ t ++ "_new SELECT * FROM " ++ t ++ ";"
  | .renameTemp t => "ALTER TABLE temp_" ++ t ++ "_new RENAME TO " ++ t ++ ";"

/-- Schema-level effect of executing one statement against the live
database.  Modelled from the spec's engine interface (§6) and standard
SQLite behaviour: `IF EXISTS` drops are no-ops when absent, `ADD
COLUMN` appends the column and its DDL text to the stored creation SQL,
the row-copying `INSERT ... SELECT` does not change the schema, and the
rename only changes the table's name. -/
def applyStmt (db : LiveDb) : Stmt → LiveDb
  | .dropTable t => db.filter fun tb => !(tb.name == t)
  | .dropColumn t c =>
      db.map fun tb =>
        if tb.name == t then
          { tb with cols := tb.cols.filter fun lc => !(lc.name == c) }
        else tb
  | .addColumn t col =>
      db.map fun tb =>
        if tb.name == t then
          { tb with
            cols := tb.cols ++ [declaredToLive col]
            sqlHasAutoInc :=
              tb.sqlHasAutoInc || col.flags.contains SqliteFlag.autoIncrement }
        else tb
  | .createTable t cols => db ++ [mkLiveTable t cols]
  | .createTempTable t cols => db ++ [mkLiveTable ("temp_" ++ t ++ "_new") cols]
  | .insertSelect _ => db
  | .renameTemp t =>
      db.map fun tb =>
        if tb.name == ("temp_" ++ t ++ "_new") then { tb with name := t } else tb

/-- `DbSchema` from src/src/model/migrator.rs: table name to declared
column list.  The Rust `HashMap` is modelled as an association list;
its iteration order is arbitrary in the source, and no claim below
depends on the order chosen. -/
abbrev DbSchema := List (String × List Column)

/-- `HashMap::get` on the schema. -/
def schemaGet (s : DbSchema) (t : String) : Option (List Column) :=
  (s.find? fun p => p.1 == t).map Prod.snd

/-- `replace_table_full` (src/src/model/migrator.rs lines 107-130): the
four statements it executes, in order. -/
def replaceTableFull (t : String) (cols : List Column) : List Stmt :=
  [.createTempTable t cols, .insertSelect t, .dropTable t, .renameTemp t]

/-- The drop-column statements of migrator.rs lines 36-47: one per live
column whose name no declared column carries, in live order. -/
def dropStmtsFor (t : String) (latest columns : List Column) : List Stmt :=
  (columns.filter fun c => !(latest.any fun lc => lc.name == c.name)).map
    fun c => .dropColumn t c.name

/-- The add-column statements of migrator.rs lines 49-61: one per
declared column absent from the pre-drop live snapshot, in declared
order. -/
def addStmtsFor (t : String) (latest columns : List Column) : List Stmt :=
  (latest.filter fun lc => !(columns.any fun c => c.name == lc.name)).map
    fun lc => .addColumn t lc

/-- The rebuild trigger of migrator.rs lines 64-77: some declared column
whose freshly introspected counterpart differs in type or fails
`same_flags` (the loop `break`s at the first hit, so only whether any
column fires matters). -/
def needsRebuild (latest columns2 : List Column) : Bool :=
  latest.any fun lc =>
    match columns2.find? (fun c => c.name == lc.name) with
    | some c => c.ty != lc.ty || !(c.sameFlags lc)
    | none => false

/-- Processing of one live table by `Migrator::migrate_models`
(migrator.rs lines 30-85): drop a retired table outright; otherwise drop
live-only columns, add declared-only columns (both judged against the
single pre-drop column snapshot, as in the source), re-introspect, and
rebuild the whole table once if any declared column mismatches.  Each
statement is executed (applied to the live database) as it is emitted. -/
def migrateTable (latestSchema : DbSchema) (db : LiveDb) (t : String) :
    List Stmt × LiveDb :=
  match schemaGet latestSchema t with
  | none => ([.dropTable t], applyStmt db (.dropTable t))
  | some latest =>
    let columns := getAllColumns db t
    let drops := dropStmtsFor t latest columns
    let db1 := drops.foldl applyStmt db
    let adds := addStmtsFor t latest columns
    let db2 := adds.foldl applyStmt db1
    let columns2 := getAllColumns db2 t
    let rb := if needsRebuild latest columns2 then replaceTableFull t latest else []
    (drops ++ adds ++ rb, rb.foldl applyStmt db2)

/-- The per-table loop of `Migrator::migrate_models`, over the table
names captured at entry. -/
def migrateTables (latestSchema : DbSchema) (db : LiveDb) :
    List String → List Stmt × LiveDb
  | [] => ([], db)
  | t :: ts =>
    let r := migrateTable latestSchema db t
    let rest := migrateTables latestSchema r.2 ts
    (r.1 ++ rest.1, rest.2)

/-- `Migrator::migrate_models` (src/src/model/migrator.rs): process every
live table, then create every declared table whose name was absent from
the table list captured at entry. -/
def migrateModels (latestSchema : DbSchema) (db : LiveDb) :
    List Stmt × LiveDb :=
  let tables := getAllTables db
  let r := migrateTables latestSchema db tables
  let creates := (latestSchema.filter fun p => !(tables.contains p.1)).map
    fun p => Stmt.createTable p.1 p.2
  (r.1 ++ creates, creates.foldl applyStmt r.2)

/-! Specification-side descriptors and shared helper lemmas. -/

/-- `", ?"` repeated `n` times. -/
def commaQs : Nat → String
  | 0 => ""
  | n + 1 => ", ?" ++ commaQs n

/-- `n` comma-separated placeholders: `""`, `"?"`, `"?, ?"`, ... -/
def placeholders : Nat → String
  | 0 => ""
  | n + 1 => "?" ++ commaQs n

/-- Comma-separated join with no trailing comma. -/
def commaSep : List String → String
  | [] => ""
  | [s] => s
  | s :: s' :: ss => s ++ "," ++ commaSep (s' :: ss)

theorem strEq_of_data {s t : String} (h : s.data = t.data) : s = t := by
  cases s
  cases t
  exact congrArg String.mk (by simpa using h)

theorem str_append_empty (s : String) : s ++ "" = s := by
  apply strEq_of_data
  simp [String.data_append]

theorem placeholderCount_append (a b : String) :
    placeholderCount (a ++ b) = placeholderCount a + placeholderCount b := by
  simp [placeholderCount, String.data_append]

theorem placeholderCount_commaQs (n : Nat) : placeholderCount (commaQs n) = n := by
  induction n with
  | zero => rfl
  | succ n ih =>
    have h1 : placeholderCount ", ?" = 1 := by decide
    rw [commaQs, placeholderCount_append, h1, ih, Nat.add_comm]

theorem placeholderCount_placeholders (n : Nat) :
    placeholderCount (placeholders n) = n := by
  cases n with
  | zero => rfl
  | succ n =>
    have h1 : placeholderCount "?" = 1 := by decide
    rw [placeholders, placeholderCount_append, h1, placeholderCount_commaQs,
      Nat.add_comm]

theorem vecInBody_pos (vs : List SqlValue) :
    ∀ i, 0 < i → vecInBody i vs = commaQs vs.length := by
  induction vs with
  | nil => intro i _; rfl
  | cons v vs ih =>
    intro i hi
    show (if i > 0 then ", " else "") ++ "?" ++ vecInBody (i + 1) vs
      = commaQs (vs.length + 1)
    rw [if_pos hi, ih (i + 1) (Nat.succ_pos i), commaQs]
    rfl

theorem vecInBody_zero (vs : List SqlValue) :
    vecInBody 0 vs = placeholders vs.length := by
  cases vs with
  | nil => rfl
  | cons v vs =>
    show (if (0 : Nat) > 0 then ", " else "") ++ "?" ++ vecInBody 1 vs
      = placeholders (vs.length + 1)
    rw [if_neg (by omega), vecInBody_pos vs 1 Nat.one_pos, placeholders]
    rfl

theorem commaJoinSrc_eq (items : List String) (h : items ≠ []) :
    commaJoinSrc items = commaSep items ++ "," := by
  induction items with
  | nil => exact absurd rfl h
  | cons s ss ih =>
    cases ss with
    | nil => simp [commaJoinSrc, commaSep, str_append_empty]
    | cons s' ss' =>
      rw [commaJoinSrc, ih (by simp)]
      simp [commaSep, String.append_assoc]

theorem popChar_append_comma (pre s : String) :
    popChar (pre ++ (s ++ ",")) = pre ++ s := by
  apply strEq_of_data
  have hc : (",").data = [','] := rfl
  simp [popChar, String.data_append, hc, ← List.append_assoc, List.dropLast_concat]

theorem popChar_commaJoin (pre : String) (items : List String) (h : items ≠ []) :
    popChar (pre ++ commaJoinSrc items) = pre ++ commaSep items := by
  rw [commaJoinSrc_eq items h, popChar_append_comma]

/-! Sample schema objects used by concrete witnesses. -/

/-- Sample primary-key column, as the derive macro would declare it. -/
def usersIdColumn : Column :=
  { name := "id", tableName := "users", ty := .integer,
    flags := [.primaryKey, .autoIncrement], default := none, relation := none }

/-- Sample NOT NULL text column. -/
def usersNameColumn : Column :=
  { name := "name", tableName := "users", ty := .text,
    flags := [.notNull], default := none, relation := none }

/-! Claim theorems. -/

/-- Claim C1: combining two filter fragments `(s1, p1)` and `(s2, p2)`
with AND produces the fragment `(s1 ++ " AND " ++ s2, p1 ++ p2)` (and
with OR, `s1 ++ " OR " ++ s2` with the same `p1 ++ p2`), and when each
operand's parameter list matches its own `?` placeholders one-to-one the
combined fragment keeps that alignment, so parameter order matches the
left-to-right placeholder order of the combined text. -/
theorem c1_filter_combination (f0 f1 : ModelQueryFilter)
    (h0 : f0.getQuery.wellFormed) (h1 : f1.getQuery.wellFormed) :
    (ModelQueryFilter.and f0 f1).getQuery
      = ⟨f0.getQuery.sql ++ " AND " ++ f1.getQuery.sql,
          f0.getQuery.params ++ f1.getQuery.params⟩
    ∧ (ModelQueryFilter.or f0 f1).getQuery
      = ⟨f0.getQuery.sql ++ " OR " ++ f1.getQuery.sql,
          f0.getQuery.params ++ f1.getQuery.params⟩
    ∧ (ModelQueryFilter.and f0 f1).getQuery.wellFormed
    ∧ (ModelQueryFilter.or f0 f1).getQuery.wellFormed := by
  have hAnd : placeholderCount " AND " = 0 := by decide
  have hOr : placeholderCount " OR " = 0 := by decide
  simp only [RawQuery.wellFormed] at h0 h1
  refine ⟨rfl, rfl, ?_, ?_⟩ <;>
    simp [RawQuery.wellFormed, ModelQueryFilter.getQuery, placeholderCount_append,
      hAnd, hOr, h0, h1]

/-- Witness for C1 at two concrete primitive fragments. -/
theorem c1_filter_combination_witness :
    ((usersIdColumn.eq (.integer 1)).getQuery.wellFormed
      ∧ (usersNameColumn.like (.text "%a%")).getQuery.wellFormed)
    ∧ (ModelQueryFilter.and (usersIdColumn.eq (.integer 1))
        (usersNameColumn.like (.text "%a%"))).getQuery
      = ⟨"users.id = ? AND users.name LIKE ?",
          [.integer 1, .text "%a%"]⟩ := by
  have hw0 : (usersIdColumn.eq (.integer 1)).getQuery.wellFormed := by
    simp only [RawQuery.wellFormed]
    decide
  have hw1 : (usersNameColumn.like (.text "%a%")).getQuery.wellFormed := by
    simp only [RawQuery.wellFormed]
    decide
  refine ⟨⟨hw0, hw1⟩, ?_⟩
  rw [(c1_filter_combination _ _ hw0 hw1).1]
  rfl

/-- Claim C8: for every column (table `t`, name `c`), each binary
operator primitive applied to a value `v` produces the fragment whose
text is `t.c <operator> ?` — with the operators rendered `=`, `!=`, `>`,
`<`, `>=`, `<=`, `LIKE`, `NOT LIKE` — and whose parameter list is
exactly `[v]`. -/
theorem c8_binary_operator_fragments (c : Column) (v : SqlValue) :
    (c.eq v).getQuery = ⟨c.tableName ++ "." ++ c.name ++ " = ?", [v]⟩
    ∧ (c.ne v).getQuery = ⟨c.tableName ++ "." ++ c.name ++ " != ?", [v]⟩
    ∧ (c.gt v).getQuery = ⟨c.tableName ++ "." ++ c.name ++ " > ?", [v]⟩
    ∧ (c.lt v).getQuery = ⟨c.tableName ++ "." ++ c.name ++ " < ?", [v]⟩
    ∧ (c.ge v).getQuery = ⟨c.tableName ++ "." ++ c.name ++ " >= ?", [v]⟩
    ∧ (c.le v).getQuery = ⟨c.tableName ++ "." ++ c.name ++ " <= ?", [v]⟩
    ∧ (c.like v).getQuery = ⟨c.tableName ++ "." ++ c.name ++ " LIKE ?", [v]⟩
    ∧ (c.notLike v).getQuery
      = ⟨c.tableName ++ "." ++ c.name ++ " NOT LIKE ?", [v]⟩ := by
  refine ⟨?_, ?_, ?_, ?_, ?_, ?_, ?_, ?_⟩ <;>
    · simp only [Column.eq, Column.ne, Column.gt, Column.lt, Column.ge, Column.le,
        Column.like, Column.notLike, Column.sqlRef, ModelQueryFilter.getQuery,
        String.append_assoc]
      rfl

/-- Claim C9: membership over a fixed list of `n` values renders
`t.c IN (?, ?, ..., ?)` (`NOT IN` for the negated form) with exactly `n`
placeholders and the `n` values as parameters in list order; membership
over a nested select query renders `t.c IN (<nested SQL>)` with the
nested query's parameters spliced in the nested query's own internal
order. -/
theorem c9_membership_fragments (c : Column) (vs : List SqlValue) (mq : ModelQuery) :
    (c.inQ (vecToQuery vs)).getQuery
      = ⟨c.tableName ++ "." ++ c.name ++ " IN (" ++ placeholders vs.length ++ ")", vs⟩
    ∧ (c.notIn (vecToQuery vs)).getQuery
      = ⟨c.tableName ++ "." ++ c.name ++ " NOT IN (" ++ placeholders vs.length ++ ")",
          vs⟩
    ∧ placeholderCount (vecToQuery vs).sql = vs.length
    ∧ (c.inQ mq.toQuery).getQuery
      = ⟨c.tableName ++ "." ++ c.name ++ " IN (" ++ mq.query ++ ")", mq.params⟩
    ∧ (c.notIn mq.toQuery).getQuery
      = ⟨c.tableName ++ "." ++ c.name ++ " NOT IN (" ++ mq.query ++ ")",
          mq.params⟩ := by
  have hparen : placeholderCount "(" = 0 ∧ placeholderCount ")" = 0 := by decide
  refine ⟨?_, ?_, ?cnt, ?_, ?_⟩
  case cnt =>
    simp [placeholderCount_append, hparen.1, hparen.2, vecToQuery,
      vecInBody_zero, placeholderCount_placeholders]
  all_goals
    simp only [Column.inQ, Column.notIn, Column.sqlRef, ModelQueryFilter.getQuery,
      vecToQuery, vecInBody_zero, ModelQuery.toQuery, ModelQuery.getQuery,
      String.append_assoc]
    rfl

/-- Claim C10: binding a `Relation` as a SQL parameter always yields an
integer — the related key when one is set, and the integer `0` (not SQL
NULL) when none is set. -/
theorem c10_relation_tosql {α : Type} (r : Relation α) :
    (∃ n : Int, r.toSql = .integer n)
    ∧ (∀ k, r.relatedKey = some k → r.toSql = .integer k)
    ∧ (r.relatedKey = none → r.toSql = .integer 0) := by
  refine ⟨⟨r.relatedKey.getD 0, rfl⟩, fun k h => ?_, fun h => ?_⟩ <;>
    simp [Relation.toSql, h]

/-- Witness for C10 at a concrete set key and at an absent key. -/
theorem c10_relation_tosql_witness :
    Relation.toSql (⟨some 5, none⟩ : Relation Unit) = .integer 5
    ∧ Relation.toSql (⟨none, none⟩ : Relation Unit) = .integer 0 :=
  ⟨(c10_relation_tosql ⟨some 5, none⟩).2.1 5 rfl,
    (c10_relation_tosql ⟨none, none⟩).2.2 rfl⟩

theorem canInsertNull_iff (c : Column) :
    c.canInsertNull = true
      ↔ (SqliteFlag.notNull ∉ c.flags ∨ SqliteFlag.primaryKey ∈ c.flags
          ∨ c.default.isSome = true) := by
  simp [Column.canInsertNull, Column.hasFlag, Column.hasDefault, or_assoc]

theorem intoInsertableGo_isSome (value : Column → Option SqlValue) :
    ∀ (cols : List Column) (colAcc : List String) (valAcc : List SqlValue),
      (intoInsertableGo value cols colAcc valAcc).isSome
        ↔ ∀ c ∈ cols, value c = none → c.canInsertNull = true := by
  intro cols
  induction cols with
  | nil =>
    intro colAcc valAcc
    simp [intoInsertableGo]
  | cons c cs ih =>
    intro colAcc valAcc
    simp only [intoInsertableGo]
    cases hv : value c with
    | some v =>
      have : (!c.canInsertNull && (value c).isNone) = false := by
        simp [hv]
      simp [hv, this, ih, List.forall_mem_cons]
    | none =>
      by_cases hc : c.canInsertNull = true
      · have : (!c.canInsertNull && (value c).isNone) = false := by
          simp [hv, hc]
        simp [hv, this, hc, ih, List.forall_mem_cons]
      · have hc' : c.canInsertNull = false := by
          simpa using hc
        simp [hv, hc', List.forall_mem_cons]

/-- Claim C6: building an insert for a record succeeds iff every
declared column whose value is absent can take a null — the column lacks
`NOT NULL`, or carries `PRIMARY KEY`, or has a declared default.  A
violation is a fatal caller error (`panic!`, modelled as `none`) raised
while collecting values, before any SQL text exists to execute. -/
theorem c6_insert_absent_value_check (cols : List Column)
    (value : Column → Option SqlValue) :
    (intoInsertable cols value).isSome
      ↔ ∀ c ∈ cols, value c = none →
          (SqliteFlag.notNull ∉ c.flags ∨ SqliteFlag.primaryKey ∈ c.flags
            ∨ c.default.isSome = true) := by
  rw [intoInsertable, intoInsertableGo_isSome]
  exact forall_congr' fun c => forall_congr' fun _ => imp_congr_right
    fun _ => canInsertNull_iff c

theorem applyUpdateOps_state (ops : List UpdateOp) :
    ∀ q : ModelUpdateQuery,
      (applyUpdateOps q ops).columns = q.columns ++ setColumnsOf ops
      ∧ (applyUpdateOps q ops).values = q.values ++ setValuesOf ops
      ∧ (applyUpdateOps q ops).query.params = q.query.params ++ clauseParamsOf ops
      ∧ (applyUpdateOps q ops).query.sql = q.query.sql ++ clauseSqlOf ops := by
  induction ops with
  | nil =>
    intro q
    refine ⟨?_, ?_, ?_, ?_⟩ <;>
      simp [applyUpdateOps, setColumnsOf, setValuesOf, clauseParamsOf, clauseSqlOf,
        str_append_empty]
  | cons op ops ih =>
    intro q
    obtain ⟨h1, h2, h3, h4⟩ := ih (UpdateOp.apply q op)
    have e : applyUpdateOps q (op :: ops) = applyUpdateOps (UpdateOp.apply q op) ops :=
      rfl
    cases op <;>
    · refine ⟨?_, ?_, ?_, ?_⟩ <;>
      · rw [e]
        first
        | rw [h1] | rw [h2] | rw [h3] | rw [h4]
        simp only [UpdateOp.apply, ModelUpdateQuery.set, ModelUpdateQuery.filterBy,
          ModelUpdateQuery.limit, ModelUpdateQuery.offset, ModelUpdateQuery.orderBy,
          ModelUpdateQuery.combine, setColumnsOf, setValuesOf, clauseParamsOf,
          clauseSqlOf, UpdateOp.clauseParams, UpdateOp.clauseSql,
          List.filterMap_cons, List.flatMap_cons, List.append_assoc,
          String.append_assoc]
        try rfl

/-- Claim C7: for an update built from any chain of builder calls
containing at least one `set`, the final parameter list is exactly the
SET-clause values (in call order) followed by the WHERE/LIMIT/OFFSET
parameters (in append order), matching the generated SQL text in which
the SET clause precedes the appended clause text. -/
theorem c7_update_parameter_order (table : String) (ops : List UpdateOp)
    (_hset : ∃ c v, UpdateOp.set c v ∈ ops) :
    (ModelUpdateQuery.getQuery table (applyUpdateOps ModelUpdateQuery.new ops)).params
      = setValuesOf ops ++ clauseParamsOf ops
    ∧ (ModelUpdateQuery.getQuery table (applyUpdateOps ModelUpdateQuery.new ops)).sql
      = "UPDATE " ++ table ++ " SET "
          ++ ModelUpdateQuery.setClause (setColumnsOf ops) ++ clauseSqlOf ops := by
  obtain ⟨h1, h2, h3, h4⟩ := applyUpdateOps_state ops ModelUpdateQuery.new
  constructor
  · show (applyUpdateOps ModelUpdateQuery.new ops).values
        ++ (applyUpdateOps ModelUpdateQuery.new ops).query.params = _
    rw [h2, h3]
    rfl
  · show "UPDATE " ++ table ++ " SET "
        ++ ModelUpdateQuery.setClause (applyUpdateOps ModelUpdateQuery.new ops).columns
        ++ (applyUpdateOps ModelUpdateQuery.new ops).query.sql = _
    rw [h1, h4]
    rfl

/-- Chain of update builder calls used by the C7 witness. -/
def c7WitnessOps : List UpdateOp :=
  [.set usersNameColumn (.text "X"), .filterBy (usersIdColumn.ge (.integer 5)),
    .limit 1]

/-- Witness for C7 at a concrete set/filter/limit chain. -/
theorem c7_update_parameter_order_witness :
    (∃ c v, UpdateOp.set c v ∈ c7WitnessOps)
    ∧ (ModelUpdateQuery.getQuery "users"
        (applyUpdateOps ModelUpdateQuery.new c7WitnessOps)).params
      = setValuesOf c7WitnessOps ++ clauseParamsOf c7WitnessOps := by
  have h : ∃ c v, UpdateOp.set c v ∈ c7WitnessOps :=
    ⟨usersNameColumn, .text "X", by simp [c7WitnessOps]⟩
  exact ⟨h, (c7_update_parameter_order "users" c7WitnessOps h).1⟩

/-- Claim C5: the full table rebuild for `T` executes exactly, in
order: create `temp_<T>_new` with the declared column DDL of `T`, copy
all rows via `INSERT INTO temp_<T>_new SELECT * FROM T`, drop `T`, and
rename the temp table to `T`. -/
theorem c5_rebuild_statement_sequence (t : String) (cols : List Column)
    (h : cols ≠ []) :
    replaceTableFull t cols
      = [Stmt.createTempTable t cols, Stmt.insertSelect t, Stmt.dropTable t,
          Stmt.renameTemp t]
    ∧ (replaceTableFull t cols).map Stmt.sql
      = ["CREATE TABLE temp_" ++ t ++ "_new ("
            ++ commaSep (cols.map Column.intoSqlite) ++ ")",
          "INSERT INTO temp_" ++ t ++ "_new SELECT * FROM " ++ t ++ ";",
          "DROP TABLE IF EXISTS " ++ t,
          "ALTER TABLE temp_" ++ t ++ "_new RENAME TO " ++ t ++ ";"] := by
  have hitems : cols.map Column.intoSqlite ≠ [] := by
    simpa using h
  refine ⟨rfl, ?_⟩
  show [Stmt.sql (.createTempTable t cols), Stmt.sql (.insertSelect t),
      Stmt.sql (.dropTable t), Stmt.sql (.renameTemp t)] = _
  rw [show Stmt.sql (.createTempTable t cols)
      = popChar ("CREATE TABLE temp_" ++ t ++ "_new ("
          ++ commaJoinSrc (cols.map Column.intoSqlite)) ++ ")" from rfl,
    popChar_commaJoin _ _ hitems]
  rfl

/-- Witness for C5 at a concrete table and nonempty column list. -/
theorem c5_rebuild_statement_sequence_witness :
    ([usersIdColumn, usersNameColumn] ≠ ([] : List Column))
    ∧ (replaceTableFull "users" [usersIdColumn, usersNameColumn]).map Stmt.sql
      = ["CREATE TABLE temp_users_new ("
            ++ commaSep ([usersIdColumn, usersNameColumn].map Column.intoSqlite)
            ++ ")",
          "INSERT INTO temp_users_new SELECT * FROM users;",
          "DROP TABLE IF EXISTS users",
          "ALTER TABLE temp_users_new RENAME TO users;"] := by
  have h : [usersIdColumn, usersNameColumn] ≠ ([] : List Column) := by
    simp
  exact ⟨h, (c5_rebuild_statement_sequence "users" [usersIdColumn, usersNameColumn] h).2⟩

theorem sameFlags_iff (c other : Column) :
    c.sameFlags other = true ↔ ∀ fl ∈ c.flags, fl ∈ other.flags := by
  simp [Column.sameFlags, Column.hasFlag, List.all_eq_true]

/-- Declared column of the C2 counterexample schema: carries `UNIQUE`. -/
def c2DeclaredColumn : Column :=
  { name := "a", tableName := "t", ty := .integer,
    flags := [.unique], default := none, relation := none }

/-- C2 counterexample declared schema. -/
def c2Schema : DbSchema := [("t", [c2DeclaredColumn])]

/-- The single live column of the C2 counterexample database. -/
def c2LiveColumn : LiveColumn :=
  { name := "a", ty := .integer, notNull := false, pk := false }

/-- C2 counterexample live database: table `t` exists with column `a` of
the same name and type but no flags at all. -/
def c2LiveDb : LiveDb :=
  [{ name := "t", cols := [c2LiveColumn], sqlHasAutoInc := false }]

/-- Counterexample to claim C2 as stated: the declared column `a` of
table `t` carries the flag set `[UNIQUE]` while its live counterpart's
flag set is empty — the flag sets differ, so per the claim a full table
rebuild must be performed — yet the migration pass emits no statement at
all: `same_flags` only checks that every live flag is among the declared
flags, so a flag present only on the declared side never triggers a
rebuild. -/
theorem c2_counterexample_declared_only_flag :
    (migrateModels c2Schema c2LiveDb).1 = []
    ∧ (getAllColumns c2LiveDb "t").map Column.flags = [[]]
    ∧ (schemaGet c2Schema "t").map (fun cs => cs.map Column.flags)
      = some [[SqliteFlag.unique]] := by
  refine ⟨by decide, by decide, by decide⟩

/-- Claim C2 (amended): during migration of a declared table `T` that
exists live, after the drop/add phases the migrator performs the full
table rebuild — emitted once, after the drops and adds, subsuming all
remaining columns — precisely when some declared column's freshly
introspected live counterpart either differs in type or carries a flag
that is not among the declared flags.  The test is this one-directional
subset comparison, not flag-set equality: a flag present only on the
declared descriptor does not trigger a rebuild. -/
theorem c2_rebuild_subset_condition (S : DbSchema) (db : LiveDb) (t : String)
    (latest : List Column) (h : schemaGet S t = some latest) :
    let columns := getAllColumns db t
    let db2 := (addStmtsFor t latest columns).foldl applyStmt
      ((dropStmtsFor t latest columns).foldl applyStmt db)
    let columns2 := getAllColumns db2 t
    (migrateTable S db t).1
      = dropStmtsFor t latest columns ++ addStmtsFor t latest columns
        ++ (if needsRebuild latest columns2 then replaceTableFull t latest else [])
    ∧ (needsRebuild latest columns2 = true
        ↔ ∃ lc ∈ latest, ∃ c,
            columns2.find? (fun c' => c'.name == lc.name) = some c
            ∧ (c.ty ≠ lc.ty ∨ ∃ fl ∈ c.flags, fl ∉ lc.flags)) := by
  intro columns db2 columns2
  constructor
  · simp only [migrateTable, h]
  · rw [needsRebuild, List.any_eq_true]
    refine exists_congr fun lc => and_congr_right fun _ => ?_
    cases hf : columns2.find? (fun c' => c'.name == lc.name) with
    | none => simp [hf]
    | some c =>
      simp only [hf, bne_iff_ne, Bool.or_eq_true, Bool.not_eq_true']
      constructor
      · rintro (hne | hsf)
        · exact ⟨c, rfl, Or.inl hne⟩
        · refine ⟨c, rfl, Or.inr ?_⟩
          have := mt (sameFlags_iff c lc).mpr (by simp [hsf])
          push_neg at this
          exact this
      · rintro ⟨c', hc', hne | ⟨fl, hfl, hnotin⟩⟩
        · cases hc'
          exact Or.inl hne
        · cases hc'
          refine Or.inr ?_
          rw [Bool.eq_false_iff]
          intro hsf
          exact hnotin ((sameFlags_iff c lc).mp hsf fl hfl)

/-- Witness for the amended C2 at the counterexample inputs: the
rebuild condition evaluates to false there, and the emitted statement
list for table `t` is empty. -/
theorem c2_rebuild_subset_condition_witness :
    schemaGet c2Schema "t" = some [c2DeclaredColumn]
    ∧ (migrateTable c2Schema c2LiveDb "t").1 = [] := by
  refine ⟨rfl, ?_⟩
  have h := (c2_rebuild_subset_condition c2Schema c2LiveDb "t" [c2DeclaredColumn]
    (by decide)).1
  rw [h]
  decide

/-- The statement drops a column of table `t`. -/
def isDropColFor (t : String) : Stmt → Prop
  | .dropColumn t' _ => t' = t
  | _ => False

/-- The statement adds a column to table `t`. -/
def isAddColFor (t : String) : Stmt → Prop
  | .addColumn t' _ => t' = t
  | _ => False

/-- The statement is a `CREATE TABLE` for a declared table (the rebuild
path's `CREATE TABLE temp_..._new` is a distinct statement kind). -/
def isCreateStmt : Stmt → Prop
  | .createTable _ _ => True
  | _ => False

/-- Every `P` statement of the list appears strictly before every `Q`
statement. -/
def beforeAll (P Q : Stmt → Prop) (l : List Stmt) : Prop :=
  ∀ i j (hi : i < l.length) (hj : j < l.length),
    P (l.get ⟨i, hi⟩) → Q (l.get ⟨j, hj⟩) → i < j

theorem beforeAll_of_append {P Q : Stmt → Prop} {l a b : List Stmt}
    (hl : l = a ++ b) (ha : ∀ s ∈ a, ¬ Q s) (hb : ∀ s ∈ b, ¬ P s) :
    beforeAll P Q l := by
  subst hl
  intro i j hi hj hP hQ
  have hib : i < a.length := by
    by_contra hge
    push_neg at hge
    have hmem : (a ++ b).get ⟨i, hi⟩ ∈ b := by
      rw [List.get_eq_getElem, List.getElem_append_right hge]
      exact List.getElem_mem _
    exact hb _ hmem hP
  have hja : a.length ≤ j := by
    by_contra hlt
    push_neg at hlt
    have hmem : (a ++ b).get ⟨j, hj⟩ ∈ a := by
      rw [List.get_eq_getElem, List.getElem_append_left hlt]
      exact List.getElem_mem _
    exact ha _ hmem hQ
  omega

theorem replaceTableFull_stmts (t t' : String) (cols : List Column) :
    ∀ s ∈ replaceTableFull t' cols,
      ¬ isDropColFor t s ∧ ¬ isAddColFor t s ∧ ¬ isCreateStmt s := by
  intro s hs
  simp only [replaceTableFull, List.mem_cons, List.not_mem_nil, or_false] at hs
  rcases hs with rfl | rfl | rfl | rfl <;>
    exact ⟨not_false, not_false, not_false⟩

theorem dropStmtsFor_shape (t : String) (latest columns : List Column) :
    ∀ s ∈ dropStmtsFor t latest columns, ∃ c, s = Stmt.dropColumn t c := by
  intro s hs
  rw [dropStmtsFor] at hs
  obtain ⟨c, _, rfl⟩ := List.mem_map.mp hs
  exact ⟨c.name, rfl⟩

theorem addStmtsFor_shape (t : String) (latest columns : List Column) :
    ∀ s ∈ addStmtsFor t latest columns, ∃ col, s = Stmt.addColumn t col := by
  intro s hs
  rw [addStmtsFor] at hs
  obtain ⟨c, _, rfl⟩ := List.mem_map.mp hs
  exact ⟨c, rfl⟩

theorem migrateTable_eq_of_some (S : DbSchema) (db : LiveDb) (t : String)
    (latest : List Column) (hget : schemaGet S t = some latest) :
    (migrateTable S db t).1
      = dropStmtsFor t latest (getAllColumns db t)
        ++ addStmtsFor t latest (getAllColumns db t)
        ++ (if needsRebuild latest (getAllColumns
              ((addStmtsFor t latest (getAllColumns db t)).foldl applyStmt
                ((dropStmtsFor t latest (getAllColumns db t)).foldl applyStmt db)) t)
            then replaceTableFull t latest else []) := by
  simp only [migrateTable, hget]

theorem migrateTable_no_create (S : DbSchema) (db : LiveDb) (t : String) :
    ∀ s ∈ (migrateTable S db t).1, ¬ isCreateStmt s := by
  intro s hs
  cases hget : schemaGet S t with
  | none =>
    rw [migrateTable, hget] at hs
    simp only [List.mem_singleton] at hs
    subst hs
    exact not_false
  | some latest =>
    rw [migrateTable_eq_of_some S db t latest hget] at hs
    simp only [List.mem_append] at hs
    rcases hs with (hs | hs) | hs
    · obtain ⟨c, rfl⟩ := dropStmtsFor_shape t _ _ s hs
      exact not_false
    · obtain ⟨c, rfl⟩ := addStmtsFor_shape t _ _ s hs
      exact not_false
    · split at hs
      · exact (replaceTableFull_stmts t _ _ s hs).2.2
      · cases hs

theorem migrateTable_other_table (S : DbSchema) (db : LiveDb) {t t' : String}
    (hne : t' ≠ t) :
    ∀ s ∈ (migrateTable S db t').1, ¬ isDropColFor t s ∧ ¬ isAddColFor t s := by
  intro s hs
  cases hget : schemaGet S t' with
  | none =>
    rw [migrateTable, hget] at hs
    simp only [List.mem_singleton] at hs
    subst hs
    exact ⟨not_false, not_false⟩
  | some latest =>
    rw [migrateTable_eq_of_some S db t' latest hget] at hs
    simp only [List.mem_append] at hs
    rcases hs with (hs | hs) | hs
    · obtain ⟨c, rfl⟩ := dropStmtsFor_shape t' _ _ s hs
      exact ⟨hne, not_false⟩
    · obtain ⟨c, rfl⟩ := addStmtsFor_shape t' _ _ s hs
      exact ⟨not_false, hne⟩
    · split at hs
      · exact ⟨(replaceTableFull_stmts t _ _ s hs).1,
          (replaceTableFull_stmts t _ _ s hs).2.1⟩
      · cases hs

theorem migrateTable_split (S : DbSchema) (db : LiveDb) (t : String) :
    ∃ a b, (migrateTable S db t).1 = a ++ b
      ∧ (∀ s ∈ a, ¬ isAddColFor t s) ∧ (∀ s ∈ b, ¬ isDropColFor t s) := by
  cases hget : schemaGet S t with
  | none =>
    refine ⟨[.dropTable t], [], by rw [migrateTable, hget]; rfl, ?_, by simp⟩
    intro s hs
    simp only [List.mem_singleton] at hs
    subst hs
    exact not_false
  | some latest =>
    refine ⟨dropStmtsFor t latest (getAllColumns db t),
      addStmtsFor t latest (getAllColumns db t)
        ++ (if needsRebuild latest (getAllColumns
              ((addStmtsFor t latest (getAllColumns db t)).foldl applyStmt
                ((dropStmtsFor t latest (getAllColumns db t)).foldl applyStmt db)) t)
            then replaceTableFull t latest else []), ?_, ?_, ?_⟩
    · rw [migrateTable_eq_of_some S db t latest hget, List.append_assoc]
    · intro s hs
      obtain ⟨c, rfl⟩ := dropStmtsFor_shape t _ _ s hs
      exact not_false
    · intro s hs
      rcases List.mem_append.mp hs with hs | hs
      · obtain ⟨c, rfl⟩ := addStmtsFor_shape t _ _ s hs
        exact not_false
      · split at hs
        · exact (replaceTableFull_stmts t _ _ s hs).1
        · cases hs

theorem migrateTables_no_dropAddCol (S : DbSchema) {t : String} :
    ∀ (ts : List String), t ∉ ts → ∀ (db : LiveDb),
      ∀ s ∈ (migrateTables S db ts).1, ¬ isDropColFor t s ∧ ¬ isAddColFor t s := by
  intro ts
  induction ts with
  | nil => intro _ db s hs; cases hs
  | cons t' ts ih =>
    intro hnot db s hs
    rw [migrateTables] at hs
    simp only [List.mem_append] at hs
    rcases hs with hs | hs
    · refine migrateTable_other_table S db ?_ s hs
      intro h
      exact hnot (by rw [← h]; exact List.mem_cons_self t' ts)
    · exact ih (fun h => hnot (List.mem_cons_of_mem t' h)) _ s hs

theorem migrateTables_no_create (S : DbSchema) :
    ∀ (ts : List String) (db : LiveDb),
      ∀ s ∈ (migrateTables S db ts).1, ¬ isCreateStmt s := by
  intro ts
  induction ts with
  | nil => intro db s hs; cases hs
  | cons t' ts ih =>
    intro db s hs
    rw [migrateTables] at hs
    simp only [List.mem_append] at hs
    rcases hs with hs | hs
    · exact migrateTable_no_create S db t' s hs
    · exact ih _ s hs

theorem migrateTables_split (S : DbSchema) {t : String} :
    ∀ (ts : List String), ts.Nodup → t ∈ ts → ∀ (db : LiveDb),
      ∃ a b, (migrateTables S db ts).1 = a ++ b
        ∧ (∀ s ∈ a, ¬ isAddColFor t s) ∧ (∀ s ∈ b, ¬ isDropColFor t s) := by
  intro ts
  induction ts with
  | nil => intro _ hmem; cases hmem
  | cons t' ts ih =>
    intro hnd hmem db
    rcases List.mem_cons.mp hmem with rfl | hmem'
    · obtain ⟨a0, b0, heq, ha0, hb0⟩ := migrateTable_split S db t
      refine ⟨a0, b0 ++ (migrateTables S (migrateTable S db t).2 ts).1, ?_, ha0, ?_⟩
      · rw [migrateTables, heq, List.append_assoc]
      · intro s hs
        rcases List.mem_append.mp hs with hs | hs
        · exact hb0 s hs
        · exact (migrateTables_no_dropAddCol S ts
            (List.Nodup.not_mem hnd) _ s hs).1
    · have hne : t' ≠ t := by
        rintro rfl
        exact (List.Nodup.not_mem hnd) hmem'
      obtain ⟨a', b', heq, ha', hb'⟩ :=
        ih (List.Nodup.of_cons hnd) hmem' (migrateTable S db t').2
      refine ⟨(migrateTable S db t').1 ++ a', b', ?_, ?_, hb'⟩
      · rw [migrateTables, heq, List.append_assoc]
      · intro s hs
        rcases List.mem_append.mp hs with hs | hs
        · exact (migrateTable_other_table S db hne s hs).2
        · exact ha' s hs

/-- Claim C4: in every migration pass, for each live table `t` all
`ALTER TABLE t DROP COLUMN` statements precede every
`ALTER TABLE t ADD COLUMN` statement for `t`, and every `CREATE TABLE`
statement for a missing declared table is emitted only after all
statements produced while processing the live tables. -/
theorem c4_statement_order (S : DbSchema) (db : LiveDb)
    (hnd : (getAllTables db).Nodup) :
    (∀ t ∈ getAllTables db,
      beforeAll (isDropColFor t) (isAddColFor t) (migrateModels S db).1)
    ∧ beforeAll (fun s => ¬ isCreateStmt s) isCreateStmt
        (migrateModels S db).1 := by
  have hout : (migrateModels S db).1
      = (migrateTables S db (getAllTables db)).1
        ++ ((S.filter fun p => !((getAllTables db).contains p.1)).map
            fun p => Stmt.createTable p.1 p.2) := rfl
  constructor
  · intro t hmem
    obtain ⟨a, b, heq, ha, hb⟩ :=
      migrateTables_split S (getAllTables db) hnd hmem db
    refine beforeAll_of_append (a := a)
      (b := b ++ (S.filter fun p => !((getAllTables db).contains p.1)).map
        (fun p => Stmt.createTable p.1 p.2)) ?_ ha ?_
    · rw [hout, heq, List.append_assoc]
    · intro s hs
      rcases List.mem_append.mp hs with hs | hs
      · exact hb s hs
      · obtain ⟨p, _, rfl⟩ := List.mem_map.mp hs
        exact not_false
  · refine beforeAll_of_append hout (migrateTables_no_create S _ db) ?_
    intro s hs h
    obtain ⟨p, _, rfl⟩ := List.mem_map.mp hs
    exact h trivial

/-- Witness for C4 at the C2 sample database and schema. -/
theorem c4_statement_order_witness :
    (getAllTables c2LiveDb).Nodup
    ∧ ((∀ t ∈ getAllTables c2LiveDb,
          beforeAll (isDropColFor t) (isAddColFor t)
            (migrateModels c2Schema c2LiveDb).1)
        ∧ beforeAll (fun s => ¬ isCreateStmt s) isCreateStmt
            (migrateModels c2Schema c2LiveDb).1) := by
  have hnd : (getAllTables c2LiveDb).Nodup := by decide
  exact ⟨hnd, c4_statement_order c2Schema c2LiveDb hnd⟩

theorem schemaGet_cons_pos {p : String × List Column} {ps : DbSchema} {t : String}
    (hc : (p.1 == t) = true) : schemaGet (p :: ps) t = some p.2 := by
  show (List.find? (fun q => q.1 == t) (p :: ps)).map Prod.snd = some p.2
  rw [@List.find?_cons_of_pos _ (fun q => q.1 == t) p ps hc]
  rfl

theorem schemaGet_cons_neg {p : String × List Column} {ps : DbSchema} {t : String}
    (hc : ¬ (p.1 == t) = true) : schemaGet (p :: ps) t = schemaGet ps t := by
  show (List.find? (fun q => q.1 == t) (p :: ps)).map Prod.snd
    = (List.find? (fun q => q.1 == t) ps).map Prod.snd
  rw [@List.find?_cons_of_neg _ (fun q => q.1 == t) p ps hc]

theorem schemaGet_of_mem_fst (t : String) :
    ∀ S : DbSchema, t ∈ S.map Prod.fst →
      ∃ cols, schemaGet S t = some cols ∧ (t, cols) ∈ S := by
  intro S
  induction S with
  | nil => intro h; cases h
  | cons p ps ih =>
    intro h
    by_cases hc : (p.1 == t) = true
    · have hpt : p.1 = t := by simpa using hc
      subst hpt
      exact ⟨p.2, schemaGet_cons_pos hc, List.mem_cons_self p ps⟩
    · simp only [List.map_cons] at h
      rcases List.mem_cons.mp h with h1 | h2
      · exact absurd (by simp [h1]) hc
      · obtain ⟨cols, hg, hmem⟩ := ih h2
        exact ⟨cols, (schemaGet_cons_neg hc).trans hg,
          List.mem_cons_of_mem p hmem⟩

theorem findTable_map_mkLive (t : String) (cols : List Column) :
    ∀ S : DbSchema, schemaGet S t = some cols →
      findTable (S.map fun p => mkLiveTable p.1 p.2) t
        = some (mkLiveTable t cols) := by
  intro S
  induction S with
  | nil => intro h; simp [schemaGet] at h
  | cons p ps ih =>
    intro h
    by_cases hc : (p.1 == t) = true
    · have hpt : p.1 = t := by simpa using hc
      rw [schemaGet_cons_pos hc] at h
      obtain rfl : p.2 = cols := by injection h
      rw [List.map_cons, findTable, List.find?_cons_of_pos _ (by simpa using hc),
        hpt]
    · rw [schemaGet_cons_neg hc] at h
      rw [List.map_cons, findTable, List.find?_cons_of_neg _ (by simpa using hc)]
      exact ih h

theorem creates_fold (S : DbSchema) :
    ∀ db : LiveDb,
      (S.map fun p => Stmt.createTable p.1 p.2).foldl applyStmt db
        = db ++ S.map fun p => mkLiveTable p.1 p.2 := by
  induction S with
  | nil => intro db; simp
  | cons p ps ih =>
    intro db
    rw [List.map_cons, List.foldl_cons, ih, List.map_cons]
    show (db ++ [mkLiveTable p.1 p.2]) ++ _ = _
    rw [List.append_assoc]
    rfl

theorem migrate_fresh (S : DbSchema) :
    (migrateModels S []).2 = S.map fun p => mkLiveTable p.1 p.2 := by
  have hfil : (S.filter fun p => !((getAllTables []).contains p.1)) = S := by
    apply List.filter_eq_self.mpr
    intro a _
    rfl
  show ((S.filter fun p => !((getAllTables []).contains p.1)).map
      fun p => Stmt.createTable p.1 p.2).foldl applyStmt
        (migrateTables S [] (getAllTables [])).2 = _
  rw [hfil, creates_fold]
  rfl

theorem getAllTables_mkLive (S : DbSchema)
    (hseq : ∀ p ∈ S, p.1 ≠ "sqlite_sequence") :
    getAllTables (S.map fun p => mkLiveTable p.1 p.2) = S.map Prod.fst := by
  rw [getAllTables, List.map_map]
  show (S.map Prod.fst).filter _ = S.map Prod.fst
  apply List.filter_eq_self.mpr
  intro a ha
  obtain ⟨p, hp, rfl⟩ := List.mem_map.mp ha
  simp [hseq p hp]

/-- A declared table's column list is valid (distinct column names — the
engine rejects duplicates — plus the §3 invariants: `AUTOINCREMENT` only
on a primary-key column, at most one primary-key column). -/
def ValidColumns (cols : List Column) : Prop :=
  (cols.map Column.name).Nodup
  ∧ (∀ c ∈ cols, SqliteFlag.autoIncrement ∈ c.flags →
      SqliteFlag.primaryKey ∈ c.flags)
  ∧ (∀ c ∈ cols, ∀ c' ∈ cols, SqliteFlag.primaryKey ∈ c.flags →
      SqliteFlag.primaryKey ∈ c'.flags → c = c')

/-- A declared schema is valid: distinct table names (the Rust `HashMap`
keys are unique), no table uses the engine-reserved name
`sqlite_sequence`, and every table's columns are valid. -/
def ValidSchema (S : DbSchema) : Prop :=
  (S.map Prod.fst).Nodup ∧ ∀ p ∈ S, p.1 ≠ "sqlite_sequence" ∧ ValidColumns p.2

theorem find?_map_name (g : Column → Column) (hg : ∀ c, (g c).name = c.name) :
    ∀ cols : List Column, (cols.map Column.name).Nodup → ∀ lc ∈ cols,
      (cols.map g).find? (fun c => c.name == lc.name) = some (g lc) := by
  intro cols
  induction cols with
  | nil => intro _ lc h; cases h
  | cons c cs ih =>
    intro hnd lc hmem
    simp only [List.map_cons] at hnd ⊢
    rcases List.mem_cons.mp hmem with rfl | hmem'
    · apply List.find?_cons_of_pos
      simp [hg]
    · rw [@List.find?_cons_of_neg _ (fun x => x.name == lc.name) (g c) _ ?_]
      · exact ih (List.nodup_cons.mp hnd).2 lc hmem'
      · simp only [hg, beq_iff_eq]
        intro h
        exact (List.nodup_cons.mp hnd).1 (h ▸ List.mem_map_of_mem Column.name hmem')

theorem introspect_sameFlags (cols : List Column)
    (hAI : ∀ c ∈ cols, SqliteFlag.autoIncrement ∈ c.flags →
      SqliteFlag.primaryKey ∈ c.flags)
    (hPK : ∀ c ∈ cols, ∀ c' ∈ cols, SqliteFlag.primaryKey ∈ c.flags →
      SqliteFlag.primaryKey ∈ c'.flags → c = c')
    (lc : Column) (hmem : lc ∈ cols) :
    Column.sameFlags
      (introspectColumn (cols.any fun c => c.flags.contains SqliteFlag.autoIncrement)
        (declaredToLive lc)) lc = true := by
  rw [sameFlags_iff]
  intro fl hfl
  simp only [introspectColumn] at hfl
  rcases List.mem_append.mp hfl with hfl' | hfl'
  · rcases List.mem_append.mp hfl' with hfl2 | hfl2
    · split at hfl2
      · next hcond =>
        obtain rfl : fl = SqliteFlag.notNull := List.mem_singleton.mp hfl2
        simpa [declaredToLive] using hcond
      · cases hfl2
    · split at hfl2
      · next hcond =>
        obtain rfl : fl = SqliteFlag.primaryKey := List.mem_singleton.mp hfl2
        simpa [declaredToLive] using hcond
      · cases hfl2
  · split at hfl'
    · next hcond =>
      obtain rfl : fl = SqliteFlag.autoIncrement := List.mem_singleton.mp hfl'
      rw [Bool.and_eq_true] at hcond
      have hpk : SqliteFlag.primaryKey ∈ lc.flags := by
        simpa [declaredToLive] using hcond.1
      obtain ⟨c', hc'mem, hc'AI⟩ := List.any_eq_true.mp hcond.2
      have hc'AI' : SqliteFlag.autoIncrement ∈ c'.flags := by
        simpa using hc'AI
      have hc'pk : SqliteFlag.primaryKey ∈ c'.flags := hAI c' hc'mem hc'AI'
      obtain rfl : c' = lc := hPK c' hc'mem lc hmem hc'pk hpk
      exact hc'AI'
    · cases hfl'

theorem getAllColumns_mkLive (db : LiveDb) (t : String) (cols : List Column)
    (hfind : findTable db t = some (mkLiveTable t cols)) :
    getAllColumns db t
      = cols.map fun c =>
          introspectColumn (cols.any fun c' => c'.flags.contains SqliteFlag.autoIncrement)
            (declaredToLive c) := by
  rw [getAllColumns, hfind]
  exact List.map_map _ _ _

theorem migrateTable_noop (S : DbSchema) (db : LiveDb) (t : String)
    (cols : List Column) (hget : schemaGet S t = some cols)
    (hfind : findTable db t = some (mkLiveTable t cols))
    (hv : ValidColumns cols) :
    migrateTable S db t = ([], db) := by
  obtain ⟨hnd, hAI, hPK⟩ := hv
  have hcols := getAllColumns_mkLive db t cols hfind
  have hgname : ∀ c : Column,
      (introspectColumn (cols.any fun c' => c'.flags.contains SqliteFlag.autoIncrement)
        (declaredToLive c)).name = c.name := fun c => rfl
  have hdropf : (getAllColumns db t).filter
      (fun c => !(cols.any fun lc => lc.name == c.name)) = [] := by
    apply List.filter_eq_nil_iff.mpr
    intro x hx hcontra
    rw [hcols] at hx
    obtain ⟨c, hc, rfl⟩ := List.mem_map.mp hx
    have hany : (cols.any fun lc =>
        lc.name == (introspectColumn (cols.any fun c' =>
          c'.flags.contains SqliteFlag.autoIncrement) (declaredToLive c)).name) = true :=
      List.any_eq_true.mpr ⟨c, hc, beq_self_eq_true c.name⟩
    rw [hany] at hcontra
    exact absurd hcontra (by decide)
  have hdrop : dropStmtsFor t cols (getAllColumns db t) = [] := by
    rw [dropStmtsFor, hdropf]
    rfl
  have haddf : (cols.filter
      fun lc => !((getAllColumns db t).any fun c => c.name == lc.name)) = [] := by
    apply List.filter_eq_nil_iff.mpr
    intro lc hlc hcontra
    have hany : ((getAllColumns db t).any fun c => c.name == lc.name) = true := by
      rw [hcols]
      exact List.any_eq_true.mpr
        ⟨_, List.mem_map_of_mem _ hlc, beq_self_eq_true lc.name⟩
    rw [hany] at hcontra
    exact absurd hcontra (by decide)
  have hadd : addStmtsFor t cols (getAllColumns db t) = [] := by
    rw [addStmtsFor, haddf]
    rfl
  have hnr : needsRebuild cols (getAllColumns db t) = false := by
    rw [needsRebuild]
    apply List.any_eq_false.mpr
    intro lc hlc
    rw [hcols, find?_map_name _ hgname cols hnd lc hlc]
    have hsf := introspect_sameFlags cols hAI hPK lc hlc
    show ¬ (((introspectColumn (cols.any fun c' =>
        c'.flags.contains SqliteFlag.autoIncrement) (declaredToLive lc)).ty != lc.ty
      || !((introspectColumn (cols.any fun c' =>
        c'.flags.contains SqliteFlag.autoIncrement) (declaredToLive lc)).sameFlags lc))
      = true)
    intro hbad
    rw [show (introspectColumn (cols.any fun c' =>
        c'.flags.contains SqliteFlag.autoIncrement) (declaredToLive lc)).ty = lc.ty
      from rfl, hsf, bne_self_eq_false] at hbad
    exact absurd hbad (by decide)
  simp only [migrateTable, hget, hdrop, hadd, List.foldl_nil, hnr,
    Bool.false_eq_true, if_false, List.append_nil, List.nil_append]

theorem migrateTables_noop (S : DbSchema) (db : LiveDb) :
    ∀ ts : List String, (∀ t ∈ ts, migrateTable S db t = ([], db)) →
      migrateTables S db ts = ([], db) := by
  intro ts
  induction ts with
  | nil => intro _; rfl
  | cons t' ts ih =>
    intro h
    have hrest := ih fun t ht => h t (List.mem_cons_of_mem t' ht)
    simp only [migrateTables, h t' (List.mem_cons_self t' ts), hrest]
    rfl

/-- Claim C3: migrating a fresh empty database against a valid declared
schema `S` and then migrating a second time against the same `S`
produces zero DDL statements on the second pass — the schema reached
after the first migration is a fixed point of the migrator. -/
theorem c3_migration_idempotent (S : DbSchema) (h : ValidSchema S) :
    (migrateModels S ((migrateModels S []).2)).1 = [] := by
  obtain ⟨hnd, hper⟩ := h
  rw [migrate_fresh S]
  have htab : getAllTables (S.map fun p => mkLiveTable p.1 p.2) = S.map Prod.fst :=
    getAllTables_mkLive S fun p hp => (hper p hp).1
  have hnoop : ∀ t ∈ getAllTables (S.map fun p => mkLiveTable p.1 p.2),
      migrateTable S (S.map fun p => mkLiveTable p.1 p.2) t
        = ([], S.map fun p => mkLiveTable p.1 p.2) := by
    intro t ht
    rw [htab] at ht
    obtain ⟨cols, hg, hmem⟩ := schemaGet_of_mem_fst t S ht
    exact migrateTable_noop S _ t cols hg (findTable_map_mkLive t cols S hg)
      (hper (t, cols) hmem).2
  have h1 : migrateTables S (S.map fun p => mkLiveTable p.1 p.2)
      (getAllTables (S.map fun p => mkLiveTable p.1 p.2))
      = ([], S.map fun p => mkLiveTable p.1 p.2) :=
    migrateTables_noop S _ _ hnoop
  have h2 : (S.filter fun p =>
      !((getAllTables (S.map fun q => mkLiveTable q.1 q.2)).contains p.1)) = [] := by
    apply List.filter_eq_nil_iff.mpr
    intro p hp hcontra
    rw [htab] at hcontra
    have hmem : p.1 ∈ S.map Prod.fst := List.mem_map_of_mem Prod.fst hp
    have hco : ((S.map Prod.fst).contains p.1) = true := by
      show List.elem p.1 (S.map Prod.fst) = true
      rw [List.elem_eq_mem]
      exact decide_eq_true hmem
    rw [hco] at hcontra
    exact absurd hcontra (by decide)
  show (migrateTables S (S.map fun p => mkLiveTable p.1 p.2)
      (getAllTables (S.map fun p => mkLiveTable p.1 p.2))).1
    ++ ((S.filter fun p =>
        !((getAllTables (S.map fun q => mkLiveTable q.1 q.2)).contains p.1)).map
      fun p => Stmt.createTable p.1 p.2) = []
  rw [h1, h2]
  rfl

/-- Concrete two-column schema for the C3 witness. -/
def c3Schema : DbSchema := [("users", [usersIdColumn, usersNameColumn])]

/-- Witness for C3 at a concrete valid schema. -/
theorem c3_migration_idempotent_witness :
    ValidSchema c3Schema
    ∧ (migrateModels c3Schema ((migrateModels c3Schema []).2)).1 = [] := by
  have hv : ValidSchema c3Schema := by
    constructor
    · decide
    · intro p hp
      rcases List.mem_singleton.mp hp with rfl
      refine ⟨by decide, by decide, by decide, ?_⟩
      decide
  exact ⟨hv, c3_migration_idempotent c3Schema hv⟩

end Sequelite
